import Mathlib

/-!
Shallow embedding of the two CLI scripts of this repository:
`export_unparsed_events.py` (pager, aggregator, selector, exporter, query
building) and `validate_parser.py` (file reading and the validation flow).
Each definition transliterates the corresponding Python function; effects
(file system, network, interactive input, process exit) are made explicit
as arguments and returned traces.
-/

/-- Python values relevant to the scripts: `None`, strings, integers and
booleans.  Events are loosely typed dictionaries over these values. -/
inductive Value where
  | none : Value
  | str : String → Value
  | int : Int → Value
  | bool : Bool → Value
deriving DecidableEq, Repr

/-- An event is a Python dict from field names to values (keys are unique
in the dictionaries the scripts build, so an association list suffices). -/
abbrev Event := List (String × Value)

/-- `event.get(key)`: first binding of `key`, defaulting to `None` when the
key is absent — exactly Python's `dict.get`, which conflates a missing key
with an explicit `None` value. -/
def Event.get : Event → String → Value
  | [], _ => Value.none
  | (k, v) :: rest, key => if k = key then v else Event.get rest key

/-- Python truthiness of a value: `None` is falsy, a string is truthy iff
nonempty, an integer iff nonzero, a boolean iff `True`. -/
def Value.truthy : Value → Bool
  | Value.none => false
  | Value.str s => decide (s ≠ "")
  | Value.int n => decide (n ≠ 0)
  | Value.bool b => b

/-- Python `str()` of a value. -/
def Value.toStr : Value → String
  | Value.none => "None"
  | Value.str s => s
  | Value.int n => toString n
  | Value.bool b => if b then "True" else "False"

/-- Lines 93–97 of `export_unparsed_events.py`, for one field:
`x = event.get(field) or 'unknown'` followed by
`x = str(x) if x is not None else 'unknown'`. -/
def sensor_field (event : Event) (field : String) : String :=
  let v0 := Event.get event field
  let v1 := if Value.truthy v0 then v0 else Value.str "unknown"
  match v1 with
  | Value.none => "unknown"
  | v => Value.toStr v

/-- The composite group key `(sensor_id, sensor_type)` derived from an
event (line 98). -/
def event_key (event : Event) : String × String :=
  (sensor_field event "sensor_id", sensor_field event "sensor_type")

abbrev SensorKey := String × String

/-- One entry of the aggregation table: a key with its ordered events. -/
abbrev SourceGroup := SensorKey × List Event

/-- `aggregated[key].append(event)` on a `defaultdict(list)` kept in
insertion order: append to the existing entry, or create a new entry at
the end. -/
def add_to_group : List SourceGroup → SensorKey → Event → List SourceGroup
  | [], key, e => [(key, [e])]
  | (k, es) :: rest, key, e =>
    if k = key then (k, es ++ [e]) :: rest
    else (k, es) :: add_to_group rest key e

/-- `aggregate_by_sensor` (lines 87–101): group the events by their
composite sensor key, preserving arrival order inside each group. -/
def aggregate_by_sensor (events : List Event) : List SourceGroup :=
  events.foldl (fun acc e => add_to_group acc (event_key e) e) []

/-- Lookup of a key's group in an aggregation table (empty if absent). -/
def group_of : List SourceGroup → SensorKey → List Event
  | [], _ => []
  | (k, es) :: rest, key => if k = key then es else group_of rest key

/-- The sort key of lines 113 and 127: `(-len(events), sensor_id,
sensor_type)`. -/
def sort_key (g : SourceGroup) : Int × String × String :=
  (-(g.2.length : Int), g.1.1, g.1.2)

/-- Lexicographic `≤` on sort keys, as Python compares the tuples. -/
def key_le (a b : Int × String × String) : Bool :=
  if a.1 < b.1 then true
  else if b.1 < a.1 then false
  else if a.2.1 < b.2.1 then true
  else if b.2.1 < a.2.1 then false
  else decide (a.2.2 ≤ b.2.2)

/-- Comparison used by `sorted(aggregated.items(), key=...)`. -/
def rank_le_b (a b : SourceGroup) : Bool :=
  key_le (sort_key a) (sort_key b)

/-- The strict ranking order induced by Python's ascending sort on the key
`(-len(events), sensor_id, sensor_type)`: `a` ranks strictly before `b`. -/
def rank_lt (a b : SourceGroup) : Prop :=
  (-(a.2.length : Int) < -(b.2.length : Int)) ∨
    ((-(a.2.length : Int) = -(b.2.length : Int)) ∧
      (a.1.1 < b.1.1 ∨ (a.1.1 = b.1.1 ∧ a.1.2 < b.1.2)))

/-- `sorted_sources` of lines 111–114 / 125–128 (Python's sort is stable;
`mergeSort` matches that). -/
def sorted_sources_of (aggregated : List SourceGroup) : List SourceGroup :=
  List.mergeSort aggregated rank_le_b

/-- Outcome of the interactive selection step. -/
inductive SelectOutcome where
  | exited : Nat → SelectOutcome
  | selected : String → String → SelectOutcome
  | outOfInput : SelectOutcome
deriving DecidableEq, Repr

/-- Observable behaviour of `select_log_source`: the outcome, how many
times `input()` was called, and what was printed to standard error. -/
structure SelectResult where
  outcome : SelectOutcome
  prompts : Nat
  errors : List String
deriving DecidableEq, Repr

/-- The `while True` prompt loop of lines 134–154, driven by the finite
list of strings the user would type. -/
def select_loop (sources : List SourceGroup) : List String → SelectOutcome × Nat
  | [] => (SelectOutcome.outOfInput, 0)
  | inp :: rest =>
    let choice := inp.trim
    if choice.toLower = "q" then (SelectOutcome.exited 0, 1)
    else
      match choice.toInt? with
      | some n =>
        if 1 ≤ n ∧ n ≤ (sources.length : Int) then
          let g := sources.getD (n - 1).toNat (("", ""), [])
          (SelectOutcome.selected g.1.1 g.1.2, 1)
        else
          let r := select_loop sources rest
          (r.1, r.2 + 1)
      | Option.none =>
        let r := select_loop sources rest
        (r.1, r.2 + 1)

/-- `select_log_source` (lines 123–154): sort the table; if it is empty,
print `No log sources found.` to stderr and exit with status 1 before any
prompt; otherwise run the prompt loop. -/
def select_log_source (aggregated : List SourceGroup) (inputs : List String) :
    SelectResult :=
  let sources := sorted_sources_of aggregated
  if sources.isEmpty then
    SelectResult.mk (SelectOutcome.exited 1) 0 ["No log sources found."]
  else
    let r := select_loop sources inputs
    SelectResult.mk r.1 r.2 []

/-- Loop body of lines 165–173: skip the event when `original_data` is
`None` (or absent), otherwise write `str(original_data)` and a newline and
bump the counter.  The accumulated file content is the first component. -/
def export_step (acc : String × Nat) (event : Event) : String × Nat :=
  match Event.get event "original_data" with
  | Value.none => acc
  | v => (acc.1 ++ Value.toStr v ++ "\n", acc.2 + 1)

/-- `export_events_to_file` (lines 157–178), as the pair (file content,
returned/printed count). -/
def export_events_to_file (events : List Event) : String × Nat :=
  events.foldl export_step ("", 0)

/-- Predicate: the event has a non-`None` `original_data` field. -/
def has_original_data (e : Event) : Bool :=
  decide (Event.get e "original_data" ≠ Value.none)

/-- The single line the exporter writes for one exported event. -/
def export_line (e : Event) : String :=
  Value.toStr (Event.get e "original_data") ++ "\n"

/-- Concatenation of a list of written chunks. -/
def concat_lines : List String → String
  | [] => ""
  | l :: rest => l ++ concat_lines rest

/-- One element of a query result list: `r.result` may be `None`, its
`rows` may be `None`, and `r.next` is the (possibly absent or falsy)
continuation cursor. -/
structure EventResult where
  result : Option (Option (List Event))
  next : Option String
deriving DecidableEq, Repr

/-- `hasattr(result, 'next') and result.next`: the result carries a truthy
cursor. -/
def truthy_next (r : EventResult) : Bool :=
  match r.next with
  | some s => decide (s ≠ "")
  | Option.none => false

/-- `get_next_page` (lines 32–37): the first truthy `next` attribute in
list order, else `None`. -/
def get_next_page : List EventResult → Option String
  | [] => Option.none
  | r :: rest =>
    match r.next with
    | some s => if s = "" then get_next_page rest else some s
    | Option.none => get_next_page rest

/-- Rows gathered from one batch (lines 68–70 / 78–80): extend by
`r.result.rows` whenever `r.result` and `r.result.rows` are truthy. -/
def collect_rows (results : List EventResult) : List Event :=
  results.foldl
    (fun acc r =>
      match r.result with
      | some (some rows) => if rows.isEmpty then acc else acc ++ rows
      | _ => acc)
    []

/-- The `while next_page:` loop of lines 73–82, with explicit fuel since
the server could in principle hand out cursors forever.  `pages` is the
abstract `service.events.subscription.event_page`. -/
def query_events_loop (pages : String → List EventResult) :
    Nat → List Event → Option String → Option (List Event)
  | _, acc, Option.none => some acc
  | 0, _, some _ => Option.none
  | fuel + 1, acc, some cursor =>
    query_events_loop pages fuel (acc ++ collect_rows (pages cursor))
      (get_next_page (pages cursor))

/-- `query_events` (lines 40–84): collect the initial batch's rows, then
follow continuation cursors until a batch carries none. -/
def query_events (initial : List EventResult)
    (pages : String → List EventResult) (fuel : Nat) : Option (List Event) :=
  query_events_loop pages fuel (collect_rows initial) (get_next_page initial)

/-- The chain of batches the server hands out after the initial one:
starting from cursor `cur`, each batch is the page fetched at the current
cursor, and the chain ends exactly when `get_next_page` yields nothing. -/
def chain_valid (pages : String → List EventResult) :
    Option String → List (List EventResult) → Prop
  | Option.none, [] => True
  | Option.none, _ :: _ => False
  | some _, [] => False
  | some c, b :: rest => b = pages c ∧ chain_valid pages (get_next_page b) rest

/-- Python `s.replace("'", "''")` on the character list: every single
quote is replaced by two, all other characters kept. -/
def escape_quotes_chars : List Char → List Char
  | [] => []
  | c :: rest =>
    if c = '\'' then '\'' :: ('\'' :: escape_quotes_chars rest)
    else c :: escape_quotes_chars rest

/-- `sensor_id.replace("'", "''")` of lines 281–282. -/
def escape_quotes (s : String) : String :=
  String.mk (escape_quotes_chars s.data)

/-- The f-string of line 283 building `filtered_query`. -/
def build_filtered_query (sensor_id sensor_type time_range : String) :
    String :=
  "FROM generic WHERE sensor_id='" ++ escape_quotes sensor_id ++
    "' AND sensor_type='" ++ escape_quotes sensor_type ++
    "' EARLIEST=" ++ time_range

/-- What the validator's path argument can resolve to. -/
inductive FileStatus where
  | missing : FileStatus
  | notAFile : FileStatus
  | unreadable : FileStatus
  | readable : String → FileStatus
deriving DecidableEq, Repr

/-- `read_par_file` (lines 31–48 of `validate_parser.py`): the error case
carries the stderr message and the exit status. -/
def read_par_file (fs : FileStatus) (file_path : String) :
    Except (String × Nat) String :=
  match fs with
  | FileStatus.missing =>
    Except.error ("Error: File not found: " ++ file_path, 1)
  | FileStatus.notAFile =>
    Except.error ("Error: Path is not a file: " ++ file_path, 1)
  | FileStatus.unreadable =>
    Except.error ("Error reading file " ++ file_path, 1)
  | FileStatus.readable content => Except.ok content

/-- Observable behaviour of `validate_parser_file`: exit status, whether
the `GraphQLService` was constructed, whether the remote endpoint was
called, and the stderr message if any. -/
structure ValidateTrace where
  exit_code : Nat
  service_initialized : Bool
  endpoint_called : Bool
  stderr_message : Option String
deriving DecidableEq, Repr

/-- `validate_parser_file` (lines 51–100 of `validate_parser.py`): read
the file first; only then construct the service and call the endpoint.
`endpoint_result` is `none` when the remote call raises. -/
def validate_parser_file (fs : FileStatus) (file_path : String)
    (service_init_ok : Bool) (endpoint_result : Option (Bool × Option String)) :
    ValidateTrace :=
  match read_par_file fs file_path with
  | Except.error (msg, code) => ValidateTrace.mk code false false (some msg)
  | Except.ok _ =>
    if service_init_ok then
      match endpoint_result with
      | some (ok, _) => ValidateTrace.mk (if ok then 0 else 1) true true Option.none
      | Option.none => ValidateTrace.mk 1 true true (some "Error validating parser")
    else
      ValidateTrace.mk 1 false false (some "Error initializing Taegis service")

/-- A distinguishable mock row. -/
def mock_row (i : Int) : Event := [("row", Value.int i)]

/-- Mock initial batch: two rows plus continuation cursor `X`. -/
def mock_initial : List EventResult :=
  [EventResult.mk (some (some [mock_row 1, mock_row 2])) (some "X")]

/-- Mock page fetch: three rows and no further cursor. -/
def mock_pages : String → List EventResult := fun _ =>
  [EventResult.mk (some (some [mock_row 3, mock_row 4, mock_row 5])) Option.none]

/-- Sample event `{sensor_id: "s1", sensor_type: "t1"}`. -/
def ev_s1t1 : Event :=
  [("sensor_id", Value.str "s1"), ("sensor_type", Value.str "t1")]

/-- Sample event `{sensor_id: None, sensor_type: "t2"}`. -/
def ev_null_t2 : Event :=
  [("sensor_id", Value.none), ("sensor_type", Value.str "t2")]

/-- Sample event whose `sensor_id` is present but the integer `0`. -/
def ev_zero_id : Event := [("sensor_id", Value.int 0)]

/-- Sample event with a truthy string `sensor_id`. -/
def ev_abc : Event := [("sensor_id", Value.str "abc")]

/-- The end-to-end sample input of the spec's testable properties. -/
def sample_events : List Event := [ev_s1t1, ev_s1t1, ev_null_t2]

/-! ## Aggregator lemmas -/

theorem group_of_add_to_group (acc : List SourceGroup) (key : SensorKey)
    (e : Event) (k : SensorKey) :
    group_of (add_to_group acc key e) k =
      if k = key then group_of acc k ++ [e] else group_of acc k := by
  induction acc with
  | nil =>
    by_cases h : k = key
    · subst h; simp [add_to_group, group_of]
    · have h2 : key ≠ k := fun hh => h hh.symm
      simp [add_to_group, group_of, h, h2]
  | cons hd tl ih =>
    obtain ⟨k1, es⟩ := hd
    by_cases h1 : k1 = key
    · subst h1
      by_cases h2 : k = k1
      · subst h2; simp [add_to_group, group_of]
      · have h2s : k1 ≠ k := fun hh => h2 hh.symm
        simp [add_to_group, group_of, h2, h2s]
    · by_cases h2 : k1 = k
      · subst h2
        have h3 : ¬ k1 = key := h1
        simp [add_to_group, group_of, h1, h3]
      · simp [add_to_group, group_of, h1, h2, ih]

theorem keys_add_to_group (acc : List SourceGroup) (key : SensorKey) (e : Event) :
    (add_to_group acc key e).map Prod.fst =
      if key ∈ acc.map Prod.fst then acc.map Prod.fst
      else acc.map Prod.fst ++ [key] := by
  induction acc with
  | nil => simp [add_to_group]
  | cons hd tl ih =>
    obtain ⟨k1, es⟩ := hd
    by_cases h1 : k1 = key
    · subst h1; simp [add_to_group]
    · have h1s : key ≠ k1 := fun hh => h1 hh.symm
      by_cases h2 : key ∈ tl.map Prod.fst
      · simp [add_to_group, h1, h1s, h2, ih]
      · simp [add_to_group, h1, h1s, h2, ih]

theorem nodup_keys_add_to_group (acc : List SourceGroup) (key : SensorKey)
    (e : Event) (h : (acc.map Prod.fst).Nodup) :
    ((add_to_group acc key e).map Prod.fst).Nodup := by
  rw [keys_add_to_group]
  by_cases hm : key ∈ acc.map Prod.fst
  · simpa [hm] using h
  · simp [hm, List.nodup_append, h]

theorem agg_fold_keys_nodup (events : List Event) :
    ∀ acc : List SourceGroup, (acc.map Prod.fst).Nodup →
      ((events.foldl (fun a e => add_to_group a (event_key e) e) acc).map
        Prod.fst).Nodup := by
  induction events with
  | nil => intro acc h; simpa using h
  | cons e rest ih =>
    intro acc h
    exact ih _ (nodup_keys_add_to_group acc (event_key e) e h)

theorem agg_fold_group_of (events : List Event) :
    ∀ (acc : List SourceGroup) (k : SensorKey),
      group_of (events.foldl (fun a e => add_to_group a (event_key e) e) acc) k =
        group_of acc k ++ events.filter (fun e => decide (event_key e = k)) := by
  induction events with
  | nil => intro acc k; simp
  | cons e rest ih =>
    intro acc k
    simp only [List.foldl_cons, List.filter_cons]
    rw [ih, group_of_add_to_group]
    by_cases h : event_key e = k
    · simp only [h]
      simp [List.append_assoc]
    · have h2 : ¬ k = event_key e := fun hh => h hh.symm
      simp [h, h2]

theorem group_of_mem (acc : List SourceGroup) (k : SensorKey) (g : List Event)
    (hnd : (acc.map Prod.fst).Nodup) (hm : (k, g) ∈ acc) :
    group_of acc k = g := by
  induction acc with
  | nil => cases hm
  | cons hd tl ih =>
    obtain ⟨k1, es⟩ := hd
    rcases List.mem_cons.mp hm with h | h
    · obtain ⟨hk, hg⟩ := Prod.mk.injEq .. ▸ h
      simp [group_of, hk.symm, hg]
    · have hnd2 : (k1 :: tl.map Prod.fst).Nodup := by
        simpa only [List.map_cons] using hnd
      have hk1 : ¬ k1 = k := by
        intro hh
        subst hh
        exact (List.nodup_cons.mp hnd2).1
          (List.mem_map.mpr ⟨(k1, g), h, rfl⟩)
      have htl : (tl.map Prod.fst).Nodup := (List.nodup_cons.mp hnd2).2
      simp only [group_of, if_neg hk1]
      exact ih htl h

theorem flatten_add_to_group (acc : List SourceGroup) (key : SensorKey)
    (e : Event) :
    ((add_to_group acc key e).map Prod.snd).flatten.Perm
      ((acc.map Prod.snd).flatten ++ [e]) := by
  induction acc with
  | nil => simp [add_to_group]
  | cons hd tl ih =>
    obtain ⟨k1, es⟩ := hd
    by_cases h1 : k1 = key
    · subst h1
      have hred : add_to_group ((k1, es) :: tl) k1 e = (k1, es ++ [e]) :: tl := by
        simp [add_to_group]
      rw [hred]
      simp only [List.map_cons, List.flatten_cons]
      rw [List.append_assoc, List.append_assoc]
      exact List.Perm.append_left es List.perm_append_comm
    · have hred : add_to_group ((k1, es) :: tl) key e =
          (k1, es) :: add_to_group tl key e := by
        simp [add_to_group, h1]
      rw [hred]
      simp only [List.map_cons, List.flatten_cons]
      rw [List.append_assoc]
      exact List.Perm.append_left es ih

theorem flatten_agg_fold (events : List Event) :
    ∀ acc : List SourceGroup,
      ((events.foldl (fun a e => add_to_group a (event_key e) e) acc).map
        Prod.snd).flatten.Perm ((acc.map Prod.snd).flatten ++ events) := by
  induction events with
  | nil => intro acc; simp
  | cons e rest ih =>
    intro acc
    simp only [List.foldl_cons]
    have h1 := ih (add_to_group acc (event_key e) e)
    have h2 := (flatten_add_to_group acc (event_key e) e).append_right rest
    have h3 : ((acc.map Prod.snd).flatten ++ [e]) ++ rest =
        (acc.map Prod.snd).flatten ++ (e :: rest) := by
      rw [List.append_assoc]; rfl
    exact h1.trans (h3 ▸ h2)

/-- C2: `aggregate_by_sensor` partitions its input exactly: the group keys
are pairwise distinct, the group stored under a key consists precisely of
the input events carrying that key in their input order, and the
concatenation of all groups is a permutation (multiset equality) of the
input. -/
theorem aggregate_by_sensor_partitions (E : List Event) :
    ((aggregate_by_sensor E).map Prod.fst).Nodup ∧
    (∀ k g, (k, g) ∈ aggregate_by_sensor E →
      g = E.filter (fun e => decide (event_key e = k))) ∧
    ((aggregate_by_sensor E).map Prod.snd).flatten.Perm E := by
  refine ⟨agg_fold_keys_nodup E [] (by simp), ?_, ?_⟩
  · intro k g hm
    have h1 := group_of_mem (aggregate_by_sensor E) k g
      (agg_fold_keys_nodup E [] (by simp)) hm
    have h2 : group_of (aggregate_by_sensor E) k =
        group_of [] k ++ E.filter (fun e => decide (event_key e = k)) :=
      agg_fold_group_of E [] k
    rw [h1] at h2
    simpa [group_of] using h2
  · simpa using flatten_agg_fold E []

/-- Witness for C2 at the spec's sample input: the `("s1","t1")` group holds
exactly the two matching events. -/
theorem aggregate_by_sensor_partitions_witness :
    ((("s1", "t1"), [ev_s1t1, ev_s1t1]) ∈ aggregate_by_sensor sample_events) ∧
    [ev_s1t1, ev_s1t1] =
      sample_events.filter (fun e => decide (event_key e = ("s1", "t1"))) := by
  refine ⟨by decide, ?_⟩
  exact (aggregate_by_sensor_partitions sample_events).2.1 ("s1", "t1")
    [ev_s1t1, ev_s1t1] (by decide)

/-- C3 fails as stated on the code: a present, non-null, non-string
`sensor_id` — the integer `0` — is keyed as `"unknown"`, not as its string
representation `"0"`, because of the truthiness fallback on line 93. -/
theorem sensor_field_claim_counterexample :
    event_key ev_zero_id = ("unknown", "unknown") ∧
    event_key ev_zero_id ≠ ("0", "unknown") := by
  decide

/-- C3 amended: the key field is `"unknown"` exactly when the field is
absent, null, or falsy (`""`, `0`, `False`); a present truthy value is
mapped to its Python string representation. -/
theorem sensor_field_cases (event : Event) (field : String) :
    (Event.get event field = Value.none → sensor_field event field = "unknown") ∧
    (∀ s, Event.get event field = Value.str s →
      sensor_field event field = if s = "" then "unknown" else s) ∧
    (∀ n, Event.get event field = Value.int n →
      sensor_field event field = if n = 0 then "unknown" else toString n) ∧
    (∀ b, Event.get event field = Value.bool b →
      sensor_field event field = if b then "True" else "unknown") := by
  refine ⟨?_, ?_, ?_, ?_⟩
  · intro h; simp [sensor_field, h, Value.truthy, Value.toStr]
  · intro s h
    by_cases hs : s = ""
    · subst hs; simp [sensor_field, h, Value.truthy, Value.toStr]
    · simp [sensor_field, h, Value.truthy, Value.toStr, hs]
  · intro n h
    by_cases hn : n = 0
    · subst hn; simp [sensor_field, h, Value.truthy, Value.toStr]
    · simp [sensor_field, h, Value.truthy, Value.toStr, hn]
  · intro b h
    cases b <;> simp [sensor_field, h, Value.truthy, Value.toStr]

/-- Witness for the amended C3: a truthy string field is used verbatim. -/
theorem sensor_field_cases_witness :
    Event.get ev_abc "sensor_id" = Value.str "abc" ∧
    sensor_field ev_abc "sensor_id" = "abc" :=
  ⟨rfl, ((sensor_field_cases ev_abc "sensor_id").2.1 "abc" rfl).trans (by decide)⟩

/-- C9: a field that is present but falsy — the empty string, the integer
`0`, or `False` — is keyed as `"unknown"`. -/
theorem falsy_field_unknown (event : Event) (field : String)
    (h : Event.get event field = Value.str "" ∨
      Event.get event field = Value.int 0 ∨
      Event.get event field = Value.bool false) :
    sensor_field event field = "unknown" := by
  rcases h with h | h | h <;> simp [sensor_field, h, Value.truthy, Value.toStr]

/-- Witness for C9: `sensor_id` present as the integer `0` is keyed
`"unknown"`. -/
theorem falsy_field_unknown_witness :
    Event.get ev_zero_id "sensor_id" = Value.int 0 ∧
    sensor_field ev_zero_id "sensor_id" = "unknown" :=
  ⟨rfl, falsy_field_unknown ev_zero_id "sensor_id" (Or.inr (Or.inl rfl))⟩

/-! ## Pager -/

theorem query_loop_chain (pages : String → List EventResult)
    (chain : List (List EventResult)) :
    ∀ (cur : Option String) (acc : List Event) (fuel : Nat),
      chain_valid pages cur chain → chain.length ≤ fuel →
      query_events_loop pages fuel acc cur =
        some (acc ++ (chain.map collect_rows).flatten) := by
  induction chain with
  | nil =>
    intro cur acc fuel hv _
    cases cur with
    | none =>
      cases fuel <;> simp [query_events_loop]
    | some c => exact absurd hv (by simp [chain_valid])
  | cons b rest ih =>
    intro cur acc fuel hv hf
    cases cur with
    | none => exact absurd hv (by simp [chain_valid])
    | some c =>
      simp only [chain_valid] at hv
      obtain ⟨hb, hrest⟩ := hv
      cases fuel with
      | zero => simp at hf
      | succ f =>
        subst hb
        have hstep : query_events_loop pages (f + 1) acc (some c) =
            query_events_loop pages f (acc ++ collect_rows (pages c))
              (get_next_page (pages c)) := rfl
        rw [hstep,
          ih (get_next_page (pages c)) (acc ++ collect_rows (pages c)) f hrest
            (by simpa using hf)]
        simp [List.append_assoc]

/-- C1: against any server whose continuation-cursor chain from the initial
batch is the finite `chain` of page batches (each fetched at the cursor the
previous batch announced, the last batch announcing none), `query_events`
returns exactly the rows of the initial batch followed by the rows of every
page batch in arrival order, and it terminates within `chain.length` loop
iterations — i.e. exactly when a fetched batch carries no cursor. -/
theorem query_events_correct (pages : String → List EventResult)
    (initial : List EventResult) (chain : List (List EventResult)) (fuel : Nat)
    (hchain : chain_valid pages (get_next_page initial) chain)
    (hfuel : chain.length ≤ fuel) :
    query_events initial pages fuel =
      some (collect_rows initial ++ (chain.map collect_rows).flatten) :=
  query_loop_chain pages chain (get_next_page initial) (collect_rows initial)
    fuel hchain hfuel

/-- Witness for C1: the mocked two-page response (2 rows + cursor `X`, then
3 rows + no cursor) yields exactly the 5 rows in page order. -/
theorem query_events_correct_witness :
    query_events mock_initial mock_pages 1 =
      some [mock_row 1, mock_row 2, mock_row 3, mock_row 4, mock_row 5] := by
  have h1 : get_next_page mock_initial = some "X" := rfl
  have h2 : get_next_page (mock_pages "X") = Option.none := rfl
  have hc : chain_valid mock_pages (get_next_page mock_initial)
      [mock_pages "X"] := by
    rw [h1]
    refine ⟨rfl, ?_⟩
    rw [h2]
    exact trivial
  have h := query_events_correct mock_pages mock_initial [mock_pages "X"] 1 hc
    (by decide)
  rw [h]
  rfl

/-- C10: `get_next_page` returns the `next` cursor of the first result in
list order whose `next` attribute is truthy, and `None` when no result has
one; later cursors in the same batch are never returned. -/
theorem get_next_page_first_truthy (results : List EventResult) :
    get_next_page results = (results.find? truthy_next).bind EventResult.next := by
  induction results with
  | nil => rfl
  | cons r rest ih =>
    cases hn : r.next with
    | none => simp [get_next_page, List.find?_cons, truthy_next, hn, ih]
    | some s =>
      by_cases hs : s = ""
      · subst hs
        simp [get_next_page, List.find?_cons, truthy_next, hn, ih]
      · simp [get_next_page, List.find?_cons, truthy_next, hn, hs]

/-! ## Selector ranking -/

/-- C4: the ranking relation induced by the sort key
`(-len(events), sensor_id, sensor_type)` is a strict total order on groups
with distinct keys, ranking larger counts first, then lexicographically
smaller `sensor_id`, then lexicographically smaller `sensor_type`. -/
theorem rank_lt_total_order :
    (∀ a : SourceGroup, ¬ rank_lt a a) ∧
    (∀ a b c : SourceGroup, rank_lt a b → rank_lt b c → rank_lt a c) ∧
    (∀ a b : SourceGroup, a.1 ≠ b.1 → rank_lt a b ∨ rank_lt b a) ∧
    (∀ a b : SourceGroup, b.2.length < a.2.length → rank_lt a b) ∧
    (∀ a b : SourceGroup, a.2.length = b.2.length → a.1.1 < b.1.1 →
      rank_lt a b) ∧
    (∀ a b : SourceGroup, a.2.length = b.2.length → a.1.1 = b.1.1 →
      a.1.2 < b.1.2 → rank_lt a b) := by
  refine ⟨?_, ?_, ?_, ?_, ?_, ?_⟩
  · intro a h
    rcases h with h | ⟨-, h | ⟨-, h⟩⟩ <;> exact lt_irrefl _ h
  · intro a b c hab hbc
    rcases hab with h1 | ⟨he1, hs1⟩
    · rcases hbc with h2 | ⟨he2, hs2⟩
      · exact Or.inl (h1.trans h2)
      · exact Or.inl (by omega)
    · rcases hbc with h2 | ⟨he2, hs2⟩
      · exact Or.inl (by omega)
      · refine Or.inr ⟨by omega, ?_⟩
        rcases hs1 with hs1 | ⟨he1s, hs1⟩
        · rcases hs2 with hs2 | ⟨he2s, hs2⟩
          · exact Or.inl (hs1.trans hs2)
          · exact Or.inl (by rw [← he2s]; exact hs1)
        · rcases hs2 with hs2 | ⟨he2s, hs2⟩
          · exact Or.inl (by rw [he1s]; exact hs2)
          · exact Or.inr ⟨he1s.trans he2s, hs1.trans hs2⟩
  · intro a b hne
    rcases lt_trichotomy a.2.length b.2.length with hl | hl | hl
    · exact Or.inr (Or.inl (by omega))
    · rcases lt_trichotomy a.1.1 b.1.1 with hs | hs | hs
      · exact Or.inl (Or.inr ⟨by omega, Or.inl hs⟩)
      · rcases lt_trichotomy a.1.2 b.1.2 with ht | ht | ht
        · exact Or.inl (Or.inr ⟨by omega, Or.inr ⟨hs, ht⟩⟩)
        · exact absurd (Prod.ext hs ht) hne
        · exact Or.inr (Or.inr ⟨by omega, Or.inr ⟨hs.symm, ht⟩⟩)
      · exact Or.inr (Or.inr ⟨by omega, Or.inl hs⟩)
    · exact Or.inl (Or.inl (by omega))
  · intro a b h
    exact Or.inl (by omega)
  · intro a b h1 h2
    exact Or.inr ⟨by omega, Or.inl h2⟩
  · intro a b h1 h2 h3
    exact Or.inr ⟨by omega, Or.inr ⟨h2, h3⟩⟩

/-- Witness for C4: a group of two events ranks before a group of one. -/
theorem rank_lt_total_order_witness :
    rank_lt (("a", "t"), [ev_s1t1, ev_s1t1]) (("b", "t"), [ev_s1t1]) :=
  rank_lt_total_order.2.2.2.1 (("a", "t"), [ev_s1t1, ev_s1t1])
    (("b", "t"), [ev_s1t1]) (by decide)

/-! ## Exporter -/

theorem export_fold (events : List Event) :
    ∀ acc : String × Nat,
      events.foldl export_step acc =
        (acc.1 ++ concat_lines ((events.filter has_original_data).map export_line),
          acc.2 + (events.filter has_original_data).length) := by
  induction events with
  | nil => intro acc; simp [concat_lines]
  | cons e rest ih =>
    intro acc
    simp only [List.foldl_cons, List.filter_cons]
    by_cases hnone : Event.get e "original_data" = Value.none
    · have hh : has_original_data e = false := by
        simp [has_original_data, hnone]
      have hstep : export_step acc e = acc := by simp [export_step, hnone]
      rw [hstep, ih, hh]
      simp
    · have hh : has_original_data e = true := by
        simp [has_original_data, hnone]
      have hstep : export_step acc e =
          (acc.1 ++ Value.toStr (Event.get e "original_data") ++ "\n",
            acc.2 + 1) := by
        cases hv : Event.get e "original_data" with
        | none => exact absurd hv hnone
        | str s => simp [export_step, hv]
        | int n => simp [export_step, hv]
        | bool b => simp [export_step, hv]
      rw [hstep, ih, hh]
      simp only [if_true, List.map_cons, concat_lines, export_line,
        List.length_cons, Prod.mk.injEq]
      constructor
      · simp [String.append_assoc]
      · omega

/-- C5: the exported file content is exactly one line — the string
representation of `original_data` followed by a single newline — per event
whose `original_data` is present and non-null, in input order; events
lacking the field are skipped, and the returned count equals the number of
lines written. -/
theorem export_events_correct (events : List Event) :
    (export_events_to_file events).1 =
      concat_lines ((events.filter has_original_data).map export_line) ∧
    (export_events_to_file events).2 =
      (events.filter has_original_data).length := by
  have h : export_events_to_file events =
      ("" ++ concat_lines ((events.filter has_original_data).map export_line),
        0 + (events.filter has_original_data).length) :=
    export_fold events ("", 0)
  rw [h]
  constructor <;> simp

/-! ## Selector empty-table behaviour -/

/-- C6: with an empty aggregation table, the selection step prints
`No log sources found.` to stderr and exits with status 1 without ever
prompting for input. -/
theorem select_empty_exits (aggregated : List SourceGroup)
    (inputs : List String) (h : aggregated = []) :
    select_log_source aggregated inputs =
      SelectResult.mk (SelectOutcome.exited 1) 0 ["No log sources found."] := by
  subst h
  simp [select_log_source, sorted_sources_of, List.mergeSort_nil]

/-- Witness for C6. -/
theorem select_empty_exits_witness :
    select_log_source [] ["1"] =
      SelectResult.mk (SelectOutcome.exited 1) 0 ["No log sources found."] :=
  select_empty_exits [] ["1"] rfl

/-! ## Quote escaping -/

theorem escape_quotes_chars_flatMap (l : List Char) :
    escape_quotes_chars l =
      l.flatMap (fun c => if c = '\'' then ['\'', '\''] else [c]) := by
  induction l with
  | nil => rfl
  | cons c rest ih =>
    by_cases hc : c = '\''
    · subst hc; simp [escape_quotes_chars, ih]
    · simp [escape_quotes_chars, hc, ih]

/-- C7: escaping doubles every embedded single quote — character-wise, a
quote becomes two quotes and every other character is kept — and the
`sensor_id` `o'brien` is interpolated into the filter query as
`o''brien`. -/
theorem escape_quotes_doubles :
    (∀ s : String, (escape_quotes s).data =
      s.data.flatMap (fun c => if c = '\'' then ['\'', '\''] else [c])) ∧
    build_filtered_query "o'brien" "t1" "-1d" =
      "FROM generic WHERE sensor_id='o''brien' AND sensor_type='t1' EARLIEST=-1d" := by
  constructor
  · intro s
    exact escape_quotes_chars_flatMap s.data
  · decide

/-! ## Validator -/

/-- C8: when the path does not resolve to an existing regular file, the
validator reports the file-not-found (or not-a-file) condition on stderr
and exits with status 1, without constructing the service or contacting
the remote validation endpoint. -/
theorem validate_no_file_fails_fast (fs : FileStatus) (file_path : String)
    (service_init_ok : Bool) (endpoint_result : Option (Bool × Option String))
    (h : fs = FileStatus.missing ∨ fs = FileStatus.notAFile) :
    validate_parser_file fs file_path service_init_ok endpoint_result =
      ValidateTrace.mk 1 false false
        (some ((if fs = FileStatus.missing then "Error: File not found: "
          else "Error: Path is not a file: ") ++ file_path)) := by
  rcases h with h | h <;> subst h <;>
    simp [validate_parser_file, read_par_file]

/-- Witness for C8 at a missing file. -/
theorem validate_no_file_fails_fast_witness :
    validate_parser_file FileStatus.missing "p.par" true (some (true, Option.none)) =
      ValidateTrace.mk 1 false false
        (some ("Error: File not found: " ++ "p.par")) := by
  have h := validate_no_file_fails_fast FileStatus.missing "p.par" true
    (some (true, Option.none)) (Or.inl rfl)
  simpa using h
